import Mathlib

/-!
Verification of the BingHome hub (oodog/binghome) against its specification.

The Python sources are shallowly embedded: dictionaries become association
lists over a JSON-like value type, randomness and HTTP traffic become
explicit oracle arguments, and every fallible operation is a total Lean
function whose error outcomes are ordinary data.
-/

/-- JSON-like values, the value type of the settings dictionary and of request
bodies (`src/app.py` persists settings with `json.dump`/`json.load`). -/
inductive JVal where
  | str (s : String)
  | num (n : Int)
  | bool (b : Bool)
  | null
  | obj (l : List (String × JVal))
  | arr (l : List JVal)

/-- Python truthiness of a JSON value (`if value` in `api_settings`):
empty strings, zero, `False`, `None`, empty objects and empty arrays are
falsy, everything else is truthy. -/
def JVal.truthy : JVal → Bool
  | .str s => s != ""
  | .num n => n != 0
  | .bool b => b
  | .null => false
  | .obj l => !l.isEmpty
  | .arr l => !l.isEmpty

/-- A Python dict of JSON values, in insertion order. -/
abbrev Settings := List (String × JVal)

/-- `d[k]` lookup: first (and in a real dict, only) binding for `k`. -/
def slookup (k : String) : Settings → Option JVal
  | [] => none
  | (k₁, v) :: t => if k₁ = k then some v else slookup k t

/-- `k in d` membership test. -/
def scontains (k : String) (l : Settings) : Bool :=
  (slookup k l).isSome

/-- `d[k] = v` assignment: overwrite the first binding of `k` in place,
or append a new binding when `k` is absent (dict insertion order). -/
def supdate (l : Settings) (k : String) (v : JVal) : Settings :=
  match l with
  | [] => [(k, v)]
  | (k₁, v₁) :: t => if k₁ = k then (k₁, v) :: t else (k₁, v₁) :: supdate t k v

/-- The keys of a settings dict. -/
def skeys (l : Settings) : List String := l.map Prod.fst

/-- A well-formed dict binds each key at most once. -/
def keysNodup (l : Settings) : Prop := (skeys l).Nodup

/-- `default_settings` of `BingHomeHub.load_settings` (src/app.py). -/
def default_settings : Settings :=
  [ ("temp_offset", .num 0),
    ("google_photos_connected", .bool false),
    ("google_photos_access_token", .str ""),
    ("google_photos_refresh_token", .str ""),
    ("google_photos_album", .str ""),
    ("google_photos_interval", .num 10),
    ("voice_provider", .str "local"),
    ("voice_enabled", .bool true),
    ("wake_words", .arr [.str "hey bing", .str "okay bing"]),
    ("weather_source", .str "openweather"),
    ("weather_location", .str "Gold Coast, QLD"),
    ("weather_api_key", .str ""),
    ("openai_api_key", .str ""),
    ("bing_api_key", .str ""),
    ("home_assistant_url", .str "http://localhost:8123"),
    ("home_assistant_token", .str ""),
    ("kiosk_mode", .bool false),
    ("auto_start_browser", .bool false),
    ("display_timeout", .num 0),
    ("apps", .obj
      [ ("netflix", .obj [("enabled", .bool true), ("url", .str "https://www.netflix.com")]),
        ("prime_video", .obj [("enabled", .bool true), ("url", .str "https://www.primevideo.com")]),
        ("youtube", .obj [("enabled", .bool true), ("url", .str "https://www.youtube.com/tv")]),
        ("disney_plus", .obj [("enabled", .bool true), ("url", .str "https://www.disneyplus.com")]),
        ("xbox_cloud", .obj [("enabled", .bool true), ("url", .str "https://www.xbox.com/play")]),
        ("steam", .obj [("enabled", .bool true), ("url", .str "https://store.steampowered.com")]),
        ("spotify", .obj [("enabled", .bool true), ("url", .str "https://open.spotify.com")]),
        ("apple_music", .obj [("enabled", .bool true), ("url", .str "https://music.apple.com")]),
        ("google_photos", .obj [("enabled", .bool true), ("url", .str "https://photos.google.com")]) ]),
    ("gpio_pins", .obj
      [ ("dht22", .num 4),
        ("gas_sensor", .num 17),
        ("light_sensor", .num 27) ]) ]

/-- The default-key merge of `load_settings`: for each default binding whose
key is absent from the loaded dict, add it. -/
def mergeDefaults (loaded : Settings) : Settings :=
  default_settings.foldl (fun s kv => if scontains kv.1 s then s else supdate s kv.1 kv.2) loaded

/-- `BingHomeHub.load_settings` (src/app.py). The file argument is `some s`
when the settings file exists and parses to the dict `s`; `none` covers the
missing-file case and the exception branch, both of which yield the defaults. -/
def load_settings (file : Option Settings) : Settings :=
  match file with
  | some s => mergeDefaults s
  | none => default_settings

/-- `BingHomeHub.save_settings` (src/app.py), successful branch: the dict is
serialized to the settings file verbatim and `True` is returned.  `json.dump`
followed by `json.load` is the identity on this value model, so the disk
content after a successful save is the saved dict itself. -/
def save_settings (s : Settings) : Option Settings × Bool :=
  (some s, true)

/-- The POST `/api/settings` merge (src/app.py, `api_settings`): starting from
a copy of the current settings, each incoming binding is written only when its
value is truthy or its key is absent from the (evolving) merged dict. -/
def mergePost (existing incoming : Settings) : Settings :=
  incoming.foldl (fun m kv => if kv.2.truthy || !scontains kv.1 m then supdate m kv.1 kv.2 else m) existing

/-- The sensitive keys blanked by GET `/api/settings` (src/app.py). -/
def sensitiveKeys : List String :=
  [ "openai_api_key", "weather_api_key", "bing_api_key", "home_assistant_token",
    "google_photos_access_token", "google_photos_refresh_token" ]

/-- One iteration of the GET `/api/settings` hiding loop: when the key is
present with a truthy value, set `key + "_configured"` to `True` and then
blank the key to the empty string. -/
def hideStep (s : Settings) (k : String) : Settings :=
  match slookup k s with
  | some v =>
      if v.truthy then supdate (supdate s (k ++ "_configured") (.bool true)) k (.str "") else s
  | none => s

/-- The GET `/api/settings` response body (src/app.py, `api_settings`): the
settings dict with every sensitive key hidden by `hideStep`. -/
def safeSettings (s : Settings) : Settings :=
  sensitiveKeys.foldl hideStep s

/-! ### Sensor reader (`BingHomeHub.read_sensors`, src/app.py)

Wall-clock timestamps are not modelled; randomness is an explicit draw
argument; all hardware I/O is an explicit outcome argument.  Python
`round(x, 1)` is modelled by `round1` (the tie-breaking rule differs from
Python banker's rounding at exact half-points, which no claim depends on). -/

/-- One sensor reading as assembled by `read_sensors` (the `data` dict,
minus its timestamp). -/
structure SensorData where
  temperature : Option ℚ
  humidity : Option ℚ
  gas_detected : Bool
  light_level : String
  air_quality : String
  deriving DecidableEq

/-- Rounding to one decimal place, `round(x, 1)`. -/
def round1 (x : ℚ) : ℚ := (round (10 * x) : ℤ) / 10

/-- The random draws consumed by the simulation branch of `read_sensors`:
`random.uniform(-5, 15)`, `random.uniform(-10, 30)`, and the three
`random.choice` picks. -/
structure SimDraws where
  tJitter : ℚ
  hJitter : ℚ
  gasPick : Fin 4
  lightPick : Fin 3
  airPick : Fin 3

/-- `random.choice([False, False, False, True])` candidates. -/
def simGasChoices : List Bool := [false, false, false, true]

/-- `random.choice(['dark', 'dim', 'bright'])` candidates. -/
def simLightChoices : List String := ["dark", "dim", "bright"]

/-- `random.choice(['excellent', 'good', 'moderate'])` candidates. -/
def simAirChoices : List String := ["excellent", "good", "moderate"]

/-- The `not RPI_AVAILABLE` branch of `read_sensors`: the initial `data`
dict updated with simulated values. -/
def read_sensors_sim (d : SimDraws) : SensorData :=
  { temperature := some (round1 (20 + d.tJitter))
    humidity := some (round1 (40 + d.hJitter))
    gas_detected := simGasChoices.get (Fin.cast rfl d.gasPick)
    light_level := simLightChoices.get (Fin.cast rfl d.lightPick)
    air_quality := simAirChoices.get (Fin.cast rfl d.airPick) }

/-- Outcome of one DHT22 read attempt: `dht.temperature`/`dht.humidity`
either raise (`exc`) or produce a pair of possibly-`None` values. -/
inductive DhtAttempt where
  | exc
  | vals (t h : Option ℚ)
  deriving DecidableEq

/-- An attempt that yielded both a temperature and a humidity. -/
def DhtAttempt.ok : DhtAttempt → Bool
  | .vals (some _) (some _) => true
  | _ => false

/-- Result of the DHT22 retry loop: how many read attempts ran, the seconds
slept after each attempt, and the calibrated values (still `none` when every
attempt failed). -/
structure DhtOutcome where
  attempts : Nat
  sleeps : List Nat
  temperature : Option ℚ
  humidity : Option ℚ
  deriving DecidableEq

/-- The body of `for attempt in range(max_retries)` in `read_sensors`:
`i` is the current attempt index, `fuel` the attempts still allowed
(current one included).  A successful pair breaks out of the loop after
applying the `temp_offset` calibration and `round(_, 1)`; a `None` pair
retries immediately; an exception sleeps `retry_delay = 2` seconds first,
but only when another attempt remains (`attempt < max_retries - 1`). -/
def dhtAux (f : Nat → DhtAttempt) (off : ℚ) : Nat → Nat → DhtOutcome
  | _, 0 => { attempts := 0, sleeps := [], temperature := none, humidity := none }
  | i, fuel + 1 =>
    match f i with
    | .vals (some t) (some h) =>
        { attempts := 1, sleeps := [0],
          temperature := some (round1 (t + off)), humidity := some (round1 h) }
    | .vals _ _ =>
        let rest := dhtAux f off (i + 1) fuel
        { attempts := rest.attempts + 1, sleeps := 0 :: rest.sleeps,
          temperature := rest.temperature, humidity := rest.humidity }
    | .exc =>
        let rest := dhtAux f off (i + 1) fuel
        { attempts := rest.attempts + 1, sleeps := (if fuel = 0 then 0 else 2) :: rest.sleeps,
          temperature := rest.temperature, humidity := rest.humidity }

/-- The DHT22 retry loop of `read_sensors` with `max_retries = 3`. -/
def dhtRetry (f : Nat → DhtAttempt) (off : ℚ) : DhtOutcome :=
  dhtAux f off 0 3

/-- The hardware environment consumed by the `RPI_AVAILABLE` branch of
`read_sensors`: which sensors were registered by `setup_hardware`, the
outcome of each DHT22 attempt, and the GPIO pin reads (`none` when
`GPIO.input` raised). -/
structure HwEnv where
  sensorsPresent : Bool
  dhtPresent : Bool
  dht : Nat → DhtAttempt
  gasPresent : Bool
  gasRead : Option Bool
  lightPresent : Bool
  lightRead : Option Bool
  temp_offset : ℚ

/-- The `RPI_AVAILABLE` branch of `read_sensors`: start from the initial
`data` dict (nulls, `gas_detected = False`, `light_level = 'unknown'`,
`air_quality = 'good'`), then run the DHT retry loop and the two GPIO reads,
each error being swallowed and leaving the corresponding fields unchanged. -/
def read_sensors_hw (env : HwEnv) : SensorData :=
  let base : SensorData :=
    { temperature := none, humidity := none, gas_detected := false,
      light_level := "unknown", air_quality := "good" }
  if !env.sensorsPresent then base else
  let d1 :=
    if env.dhtPresent then
      let o := dhtRetry env.dht env.temp_offset
      { base with temperature := o.temperature, humidity := o.humidity }
    else base
  let d2 :=
    if env.gasPresent then
      match env.gasRead with
      | some g => { d1 with gas_detected := g, air_quality := if g then "poor" else "good" }
      | none => d1
    else d1
  if env.lightPresent then
    match env.lightRead with
    | some b => { d2 with light_level := if b then "bright" else "dark" }
    | none => d2
  else d2

/-! ### Weather service (`WeatherService`, src/core/weather.py)

HTTP traffic is an explicit outcome argument.  Timestamps are omitted from
the weather dicts (wall clock).  `data['weather'][0]['description'].title()`
is carried as the already-extracted description string, and the
`'%H:%M'`-formatted sunrise/sunset times are carried as strings. -/

/-- A fully populated current-weather dict as built by `WeatherService`. -/
structure WeatherData where
  temp : ℤ
  feels_like : ℤ
  condition : String
  description : String
  humidity : ℤ
  pressure : ℤ
  wind_speed : ℚ
  wind_direction : ℤ
  visibility : ℚ
  uv_index : ℤ
  location : String
  country : String
  icon : String
  sunrise : String
  sunset : String
  source : String
  radar_available : Bool
  radar_url : Option String := none
  radar_description : Option String := none
  deriving DecidableEq

/-- The fields extracted from a parsed OpenWeatherMap 200 response body. -/
structure OWMBody where
  temp : ℚ
  feels_like : ℚ
  weather_main : String
  weather_description : String
  humidity : ℤ
  pressure : ℤ
  wind_speed : ℚ
  wind_deg : ℤ
  visibility : Option ℚ
  name : String
  country : String
  icon : String
  sunrise : String
  sunset : String
  deriving DecidableEq

/-- Outcome of the `requests.get` call in `_get_openweather_current`:
either some exception was raised inside the `try` block, or a response with
a status code arrived (a 200 response carries its parsed body). -/
inductive HttpOutcome where
  | exc
  | resp (status : Nat) (body : OWMBody)
  deriving DecidableEq

/-- `WeatherService` state relevant to `get_current`: configured source,
API key, location, and the `self.current_weather` cache, with `none`
modelling the initial empty dict `{}`. -/
structure WeatherState where
  weather_source : String
  api_key : String
  location : String
  current_weather : Option WeatherData

/-- What `get_current` hands back: either a populated weather dict, or the
empty `self.current_weather` dict. -/
inductive WOut where
  | full (w : WeatherData)
  | empty
  deriving DecidableEq

/-- `WeatherService._get_default_weather` (src/core/weather.py). -/
def defaultWeather (location : String) : WeatherData :=
  { temp := 22, feels_like := 23, condition := "Clear", description := "Clear Sky",
    humidity := 60, pressure := 1013, wind_speed := 85 / 10, wind_direction := 180,
    visibility := 10, uv_index := 5, location := location, country := "AU",
    icon := "01d", sunrise := "06:45", sunset := "18:30", source := "Default",
    radar_available := false }

/-- `WeatherService._get_qld_default_weather` (src/core/weather.py). -/
def qldWeather : WeatherData :=
  { temp := 24, feels_like := 26, condition := "Partly Cloudy", description := "Partly Cloudy",
    humidity := 68, pressure := 1013, wind_speed := 152 / 10, wind_direction := 135,
    visibility := 10, uv_index := 8, location := "Gold Coast", country := "AU",
    icon := "02d", sunrise := "06:30", sunset := "18:45", source := "Queensland Radar",
    radar_available := true,
    radar_url := some "https://data.theweather.com.au/access/animators/radar/?lt=wzstate&user=10545v3&lc=qld",
    radar_description := some "Live weather radar showing precipitation and storm activity across Queensland" }

/-- The weather dict `_get_openweather_current` builds from a 200 response:
`round` on temperatures, m/s→km/h wind conversion rounded to one decimal,
metre→km visibility when the raw value is truthy, `uv_index` fixed at 0. -/
def owmParse (b : OWMBody) : WeatherData :=
  { temp := round b.temp, feels_like := round b.feels_like,
    condition := b.weather_main, description := b.weather_description,
    humidity := b.humidity, pressure := b.pressure,
    wind_speed := round1 (b.wind_speed * 36 / 10), wind_direction := b.wind_deg,
    visibility := match b.visibility with
      | some v => if v != 0 then v / 1000 else 0
      | none => 0,
    uv_index := 0, location := b.name, country := b.country, icon := b.icon,
    sunrise := b.sunrise, sunset := b.sunset, source := "OpenWeatherMap",
    radar_available := false }

/-- `WeatherService._get_openweather_current` (src/core/weather.py): missing
API key or an exception inside the `try` block yields the default weather;
a 200 response yields the parsed dict; any other status code falls through
to `return self.current_weather`, the (possibly empty) cache. -/
def getOpenweatherCurrent (st : WeatherState) (http : HttpOutcome) (location : String) : WOut :=
  if st.api_key = "" then .full (defaultWeather location)
  else
    match http with
    | .exc => .full (defaultWeather location)
    | .resp status body =>
        if status = 200 then .full (owmParse body)
        else
          match st.current_weather with
          | some w => .full w
          | none => .empty

/-- `WeatherService.get_current` (src/core/weather.py) with `location=None`,
so the configured location is used; dispatches on the configured source. -/
def get_current (st : WeatherState) (http : HttpOutcome) : WOut :=
  if st.weather_source = "openweather" then getOpenweatherCurrent st http st.location
  else if st.weather_source = "qld_radar" then .full qldWeather
  else if st.weather_source = "bom_australia" then .full (defaultWeather st.location)
  else .full (defaultWeather st.location)

/-! ### Google Photos request flow (`GooglePhotosService`, src/core/google_photos.py) -/

/-- Outcome of one `requests.request` call in `_make_request`: a timeout,
another exception (with its `str(e)` text), or a response. -/
inductive ReqOutcome where
  | timeout
  | exc (msg : String)
  | resp (status : Nat) (body : String)
  deriving DecidableEq

/-- The dict `_make_request` returns: `success`, `status_code`, and the
`data`/`error` payload. -/
structure ApiResult where
  success : Bool
  status_code : Nat
  payload : String
  deriving DecidableEq

/-- `error_msg = response.text[:500] if response.text else 'Unknown error'`. -/
def errBody (b : String) : String :=
  if b = "" then "Unknown error" else b.take 500

/-- The tail of `_make_request`: classify a response by status code. -/
def finishResponse (status : Nat) (body : String) : ApiResult :=
  if status = 200 then { success := true, status_code := 200, payload := body }
  else { success := false, status_code := status, payload := errBody body }

/-- Environment of one `_make_request` call: current access token, whether
the cached `_token_expiry` has passed, and oracles for the i-th
`refresh_access_token` call and the i-th HTTP request issued. -/
structure PhotosEnv where
  access_token : String
  expiryDue : Bool
  refreshOk : Nat → Bool
  request : Nat → ReqOutcome

/-- Trace of one `_make_request` call: its result and how many HTTP
requests and token refreshes were issued. -/
structure ReqTrace where
  result : ApiResult
  requests : Nat
  refreshes : Nat
  deriving DecidableEq

/-- `GooglePhotosService._make_request` (src/core/google_photos.py): bail out
with 401 when no token is stored; refresh first when the cached expiry has
passed (failure → 401, no request); issue the request; on a 401 response
refresh and, only when the refresh succeeded, reissue the request once,
classifying whatever response that second attempt produced; timeouts map to
504 and other exceptions to 500. -/
def makeRequest (env : PhotosEnv) : ReqTrace :=
  if env.access_token = "" then
    { result := { success := false, status_code := 401, payload := "Not connected" },
      requests := 0, refreshes := 0 }
  else
    if env.expiryDue ∧ env.refreshOk 0 = false then
      { result := { success := false, status_code := 401, payload := "Token refresh failed" },
        requests := 0, refreshes := 1 }
    else
      let preRefreshes := if env.expiryDue then 1 else 0
      match env.request 0 with
      | .timeout =>
          { result := { success := false, status_code := 504, payload := "Request timed out" },
            requests := 1, refreshes := preRefreshes }
      | .exc msg =>
          { result := { success := false, status_code := 500, payload := msg },
            requests := 1, refreshes := preRefreshes }
      | .resp status body =>
          if status = 401 then
            if env.refreshOk preRefreshes then
              match env.request 1 with
              | .timeout =>
                  { result := { success := false, status_code := 504, payload := "Request timed out" },
                    requests := 2, refreshes := preRefreshes + 1 }
              | .exc msg =>
                  { result := { success := false, status_code := 500, payload := msg },
                    requests := 2, refreshes := preRefreshes + 1 }
              | .resp status2 body2 =>
                  { result := finishResponse status2 body2,
                    requests := 2, refreshes := preRefreshes + 1 }
            else
              { result := { success := false, status_code := 401, payload := "Authentication failed" },
                requests := 1, refreshes := preRefreshes + 1 }
          else
            { result := finishResponse status body,
              requests := 1, refreshes := preRefreshes }

/-! ### Voice intent resolver

The spec's voice intent resolver (spec.md §4.1) is not among the shipped
source files: `voice_assistant.py` only maps two fixed phrases to URLs and
the socket handler in `src/app.py` merely echoes the command, while the
keyword/alias resolver lives in repository variants that are not included.
The keyword stage is therefore modelled from the spec's words below. -/

/-- `leadsList n h` holds when `n` is a prefix of `h` (over characters). -/
def leadsList : List Char → List Char → Bool
  | [], _ => true
  | _ :: _, [] => false
  | a :: as, b :: bs => a == b && leadsList as bs

/-- `occursIn n h` holds when `n` occurs contiguously inside `h`. -/
def occursIn (needle : List Char) : List Char → Bool
  | [] => leadsList needle []
  | c :: t => leadsList needle (c :: t) || occursIn needle t

/-- Python's `needle in hay` substring test. -/
def substrOf (needle hay : String) : Bool :=
  occursIn needle.data hay.data

/-- A device action forwarded to the automation hub:
`{domain, service, payload}` (spec.md §3, DeviceAction). -/
structure DeviceAction where
  domain : String
  service : String
  payload : List (String × JVal)

/-- Modelled from the spec: Step 3 of the voice intent resolver (spec.md
§4.1) — "if a known alias substring appears in the utterance, resolve to its
stored entity id; otherwise fall back to a hardcoded default entity". -/
def resolveEntity (aliases : List (String × String)) (u : String) (dflt : String) : String :=
  match aliases.find? (fun a => substrOf a.1 u) with
  | some a => a.2
  | none => dflt

/-- First two consecutive decimal digits of the utterance, the model of the
spec's "2-digit number extracted via regex". -/
def firstTwoDigits : List Char → Option Nat
  | a :: b :: t =>
      if a.isDigit && b.isDigit then some ((a.toNat - 48) * 10 + (b.toNat - 48))
      else firstTwoDigits (b :: t)
  | _ => none

/-- Modelled from the spec: Step 2 of the voice intent resolver (spec.md
§4.1) — keyword rules scanning for fixed substrings ("turn on"/"turn off"
combined with "light"/"fan"; "set ... temperature" combined with a 2-digit
number), first matching rule winning, with the target entity resolved per
Step 3 against a hardcoded default (spec.md: e.g. "light.living_room").
Alias learning (Step 1) and the LLM fallback (Step 4) sit before and after
this stage and are not needed by the keyword claims. -/
def keywordRule (aliases : List (String × String)) (u : String) : Option DeviceAction :=
  if substrOf "turn on" u && substrOf "light" u then
    some { domain := "light", service := "turn_on",
           payload := [("entity_id", .str (resolveEntity aliases u "light.living_room"))] }
  else if substrOf "turn off" u && substrOf "light" u then
    some { domain := "light", service := "turn_off",
           payload := [("entity_id", .str (resolveEntity aliases u "light.living_room"))] }
  else if substrOf "turn on" u && substrOf "fan" u then
    some { domain := "fan", service := "turn_on",
           payload := [("entity_id", .str (resolveEntity aliases u "fan.living_room"))] }
  else if substrOf "turn off" u && substrOf "fan" u then
    some { domain := "fan", service := "turn_off",
           payload := [("entity_id", .str (resolveEntity aliases u "fan.living_room"))] }
  else if substrOf "set" u && substrOf "temperature" u then
    match firstTwoDigits u.data with
    | some n =>
        some { domain := "climate", service := "set_temperature",
               payload := [("entity_id", .str (resolveEntity aliases u "climate.living_room")),
                           ("temperature", .num n)] }
    | none => none
  else none

/-! ### Theorems -/

/-- C7: an authenticated Google Photos request that reaches the HTTP layer
and receives a 401 is retried exactly once after a successful token refresh;
a failed refresh yields a 401 failure result with no further attempt; in
every run `_make_request` issues at most two HTTP requests. -/
theorem c7_refresh_retry_once (env : PhotosEnv) :
    (makeRequest env).requests ≤ 2 ∧
    (∀ b, env.access_token ≠ "" →
      (env.expiryDue = true → env.refreshOk 0 = true) →
      env.request 0 = .resp 401 b →
      (env.refreshOk (if env.expiryDue then 1 else 0) = true →
        (makeRequest env).requests = 2) ∧
      (env.refreshOk (if env.expiryDue then 1 else 0) = false →
        (makeRequest env).requests = 1 ∧
        (makeRequest env).result =
          { success := false, status_code := 401, payload := "Authentication failed" })) := by
  constructor
  · by_cases h1 : env.access_token = ""
    · simp [makeRequest, h1]
    · by_cases h2 : env.expiryDue ∧ env.refreshOk 0 = false
      · simp [makeRequest, h1, h2]
      · cases h0 : env.request 0 with
        | timeout => simp [makeRequest, h1, h2, h0]
        | exc m => simp [makeRequest, h1, h2, h0]
        | resp s b =>
          by_cases hs : s = 401
          · by_cases hr : env.refreshOk (if env.expiryDue then 1 else 0) = true
            · cases h1' : env.request 1 <;>
                simp [makeRequest, h1, h2, h0, hs, hr, h1']
            · simp [makeRequest, h1, h2, h0, hs, hr]
          · simp [makeRequest, h1, h2, h0, hs]
  · intro b h1 hpre h0
    have h2 : ¬(env.expiryDue ∧ env.refreshOk 0 = false) := by
      rintro ⟨hd, hf⟩
      rw [hpre hd] at hf
      simp at hf
    constructor
    · intro hr
      cases h1' : env.request 1 <;>
        simp [makeRequest, h1, h2, h0, hr, h1']
    · intro hr
      simp [makeRequest, h1, h2, h0, hr]

/-- Witness for C7 at a concrete environment: a 401 first response whose
refresh fails produces the 401 failure with a single request. -/
theorem c7_refresh_retry_once_witness :
    (makeRequest
      { access_token := "tok", expiryDue := false,
        refreshOk := fun _ => false, request := fun _ => .resp 401 "denied" }).requests = 1 ∧
    (makeRequest
      { access_token := "tok", expiryDue := false,
        refreshOk := fun _ => false, request := fun _ => .resp 401 "denied" }).result =
      { success := false, status_code := 401, payload := "Authentication failed" } :=
  ((c7_refresh_retry_once
      { access_token := "tok", expiryDue := false,
        refreshOk := fun _ => false, request := fun _ => .resp 401 "denied" }).2
    "denied" (by simp) (by simp) rfl).2 rfl

/-! #### Dictionary lemmas -/

theorem slookup_supdate (l : Settings) (k k₁ : String) (v : JVal) :
    slookup k (supdate l k₁ v) = if k₁ = k then some v else slookup k l := by
  induction l with
  | nil => by_cases h : k₁ = k <;> simp [supdate, slookup, h]
  | cons p t ih =>
    obtain ⟨k₂, v₂⟩ := p
    by_cases h1 : k₂ = k₁
    · subst h1
      by_cases h2 : k₂ = k <;> simp [supdate, slookup, h2]
    · by_cases h2 : k₂ = k
      · subst h2
        have h3 : ¬k₁ = k₂ := fun hh => h1 hh.symm
        simp [supdate, slookup, h1, h3]
      · simp [supdate, slookup, h1, h2, ih]

theorem scontains_supdate (l : Settings) (k k₁ : String) (v : JVal) :
    scontains k (supdate l k₁ v) = (scontains k l || (k₁ == k)) := by
  by_cases h : k₁ = k <;> simp [scontains, slookup_supdate, h]

theorem mem_skeys_iff_scontains (l : Settings) (k : String) :
    k ∈ skeys l ↔ scontains k l = true := by
  induction l with
  | nil => simp [skeys, scontains, slookup]
  | cons p t ih =>
    obtain ⟨k₂, v₂⟩ := p
    by_cases h : k₂ = k
    · subst h
      simp [skeys, scontains, slookup]
    · rw [show skeys ((k₂, v₂) :: t) = k₂ :: skeys t from rfl,
        show scontains k ((k₂, v₂) :: t) = scontains k t from by simp [scontains, slookup, h]]
      simp only [List.mem_cons]
      constructor
      · rintro (hh | hh)
        · exact absurd hh.symm h
        · exact ih.mp hh
      · intro hh
        exact Or.inr (ih.mpr hh)

theorem slookup_none_of_not_mem (l : Settings) (k : String) (h : k ∉ skeys l) :
    slookup k l = none := by
  rw [mem_skeys_iff_scontains] at h
  simp only [scontains, Option.isSome] at h
  cases hl : slookup k l with
  | none => rfl
  | some v => rw [hl] at h; simp at h

theorem skeys_supdate (l : Settings) (k : String) (v : JVal) :
    skeys (supdate l k v) = if scontains k l then skeys l else skeys l ++ [k] := by
  induction l with
  | nil => simp [supdate, skeys, scontains, slookup]
  | cons p t ih =>
    obtain ⟨k₂, v₂⟩ := p
    by_cases h : k₂ = k
    · subst h
      simp [supdate, skeys, scontains, slookup]
    · have e1 : supdate ((k₂, v₂) :: t) k v = (k₂, v₂) :: supdate t k v := by
        simp [supdate, h]
      have e2 : scontains k ((k₂, v₂) :: t) = scontains k t := by
        simp [scontains, slookup, h]
      rw [e1, e2, show skeys ((k₂, v₂) :: supdate t k v) = k₂ :: skeys (supdate t k v) from rfl,
        show skeys ((k₂, v₂) :: t) = k₂ :: skeys t from rfl, ih]
      by_cases hc : scontains k t <;> simp [hc]

theorem keysNodup_supdate (l : Settings) (k : String) (v : JVal)
    (h : keysNodup l) : keysNodup (supdate l k v) := by
  unfold keysNodup at *
  rw [skeys_supdate]
  by_cases hc : scontains k l
  · simpa [hc] using h
  · have hk : k ∉ skeys l := by
      rw [mem_skeys_iff_scontains]
      simp [hc]
    rw [if_neg (by simpa using hc)]
    simp [List.nodup_append, h, hk]

theorem eq_of_lookup_eq (s₁ : Settings) :
    ∀ s₂ : Settings, skeys s₁ = skeys s₂ → keysNodup s₁ →
    (∀ k, slookup k s₁ = slookup k s₂) → s₁ = s₂ := by
  induction s₁ with
  | nil =>
    intro s₂ hk _ _
    cases s₂ with
    | nil => rfl
    | cons q t => simp [skeys] at hk
  | cons p t ih =>
    intro s₂ hk hnd h
    cases s₂ with
    | nil => simp [skeys] at hk
    | cons q t₂ =>
      obtain ⟨k, v⟩ := p
      obtain ⟨k₂, v₂⟩ := q
      simp only [skeys, List.map_cons, List.cons.injEq] at hk
      obtain ⟨hkk, htk⟩ := hk
      subst hkk
      have hv : v = v₂ := by
        have := h k
        simpa [slookup] using this
      subst hv
      have hnd' : keysNodup t := by
        simp only [keysNodup, skeys, List.map_cons, List.nodup_cons] at hnd ⊢
        exact hnd.2
      have hknot : k ∉ skeys t := by
        simp only [keysNodup, skeys, List.map_cons, List.nodup_cons] at hnd
        exact hnd.1
      have hknot₂ : k ∉ skeys t₂ := by
        unfold skeys
        rw [← htk]
        exact hknot
      have ht : t = t₂ := by
        apply ih t₂ htk hnd'
        intro k₁
        by_cases hek : k = k₁
        · subst hek
          rw [slookup_none_of_not_mem t k hknot, slookup_none_of_not_mem t₂ k hknot₂]
        · have := h k₁
          simpa [slookup, hek] using this
      rw [ht]

theorem foldMerge_lookup_preserved (ds : List (String × JVal)) :
    ∀ (s : Settings) (k : String) (v : JVal), slookup k s = some v →
    slookup k (ds.foldl (fun s kv => if scontains kv.1 s then s else supdate s kv.1 kv.2) s)
      = some v := by
  induction ds with
  | nil => intro s k v h; exact h
  | cons p t ih =>
    intro s k v h
    simp only [List.foldl_cons]
    by_cases hc : scontains p.1 s
    · rw [if_pos hc]
      exact ih s k v h
    · rw [if_neg hc]
      apply ih
      rw [slookup_supdate]
      have hne : ¬p.1 = k := by
        intro he
        rw [he] at hc
        exact hc (by simp [scontains, h])
      rw [if_neg hne]
      exact h

theorem foldMerge_contains_mono (ds : List (String × JVal)) :
    ∀ (s : Settings) (k : String), scontains k s = true →
    scontains k (ds.foldl (fun s kv => if scontains kv.1 s then s else supdate s kv.1 kv.2) s)
      = true := by
  induction ds with
  | nil => intro s k h; exact h
  | cons p t ih =>
    intro s k h
    simp only [List.foldl_cons]
    by_cases hc : scontains p.1 s
    · rw [if_pos hc]
      exact ih s k h
    · rw [if_neg hc]
      apply ih
      rw [scontains_supdate, h]
      simp

theorem foldMerge_contains_of_mem (ds : List (String × JVal)) :
    ∀ (s : Settings) (k : String), k ∈ List.map Prod.fst ds →
    scontains k (ds.foldl (fun s kv => if scontains kv.1 s then s else supdate s kv.1 kv.2) s)
      = true := by
  induction ds with
  | nil => intro s k h; simp at h
  | cons p t ih =>
    intro s k h
    simp only [List.map_cons, List.mem_cons] at h
    simp only [List.foldl_cons]
    rcases h with he | hm
    · subst he
      by_cases hc : scontains p.1 s
      · rw [if_pos hc]
        exact foldMerge_contains_mono t s p.1 hc
      · rw [if_neg hc]
        apply foldMerge_contains_mono
        rw [scontains_supdate]
        simp
    · exact ih _ k hm

theorem mergePost_contains_mono (incoming : Settings) :
    ∀ (s : Settings) (k : String), scontains k s = true →
    scontains k (mergePost s incoming) = true := by
  induction incoming with
  | nil => intro s k h; exact h
  | cons p t ih =>
    intro s k h
    simp only [mergePost, List.foldl_cons]
    by_cases hc : (p.2.truthy || !scontains p.1 s) = true
    · rw [if_pos hc]
      apply ih
      rw [scontains_supdate, h]
      simp
    · rw [if_neg hc]
      exact ih s k h

theorem mergePost_untouched (t : Settings) :
    ∀ (m : Settings) (k : String), k ∉ List.map Prod.fst t →
    slookup k (mergePost m t) = slookup k m := by
  induction t with
  | nil => intro m k _; rfl
  | cons p t ih =>
    intro m k h
    simp only [List.map_cons, List.mem_cons] at h
    push_neg at h
    simp only [mergePost, List.foldl_cons]
    by_cases hc : (p.2.truthy || !scontains p.1 m) = true
    · rw [if_pos hc]
      show slookup k (mergePost (supdate m p.1 p.2) t) = slookup k m
      rw [ih _ k h.2, slookup_supdate, if_neg (fun he => h.1 he.symm)]
    · rw [if_neg hc]
      exact ih m k h.2

theorem mergePost_lookup_cases (incoming : Settings) :
    ∀ existing : Settings, keysNodup incoming → ∀ (k : String) (v : JVal),
    slookup k incoming = some v →
    ((v.truthy = false → scontains k existing = true →
        slookup k (mergePost existing incoming) = slookup k existing) ∧
      ((v.truthy = true ∨ scontains k existing = false) →
        slookup k (mergePost existing incoming) = some v)) := by
  induction incoming with
  | nil => intro existing _ k v hk; simp [slookup] at hk
  | cons p t ih =>
    intro existing hnd k v hk
    obtain ⟨k₁, v₁⟩ := p
    have hnd1 : k₁ ∉ List.map Prod.fst t := by
      simp only [keysNodup, skeys, List.map_cons, List.nodup_cons] at hnd
      exact hnd.1
    have hndt : keysNodup t := by
      simp only [keysNodup, skeys, List.map_cons, List.nodup_cons] at hnd
      exact hnd.2
    by_cases he : k₁ = k
    · subst he
      have hv : v₁ = v := by simpa [slookup] using hk
      subst hv
      constructor
      · intro hf hc
        have hcond : (v₁.truthy || !scontains k₁ existing) = false := by simp [hf, hc]
        simp only [mergePost, List.foldl_cons]
        rw [if_neg (by simp [hcond])]
        exact mergePost_untouched t existing k₁ hnd1
      · intro hor
        have hcond : (v₁.truthy || !scontains k₁ existing) = true := by
          rcases hor with h1 | h1 <;> simp [h1]
        have step_eq : mergePost existing ((k₁, v₁) :: t) = mergePost (supdate existing k₁ v₁) t := by
          simp only [mergePost, List.foldl_cons]
          rw [if_pos hcond]
        rw [step_eq, mergePost_untouched t _ k₁ hnd1, slookup_supdate, if_pos rfl]
    · have hkt : slookup k t = some v := by simpa [slookup, he] using hk
      by_cases hc : (v₁.truthy || !scontains k₁ existing) = true
      · have step_eq : mergePost existing ((k₁, v₁) :: t) = mergePost (supdate existing k₁ v₁) t := by
          simp only [mergePost, List.foldl_cons]
          rw [if_pos hc]
        have hl : slookup k (supdate existing k₁ v₁) = slookup k existing := by
          rw [slookup_supdate, if_neg he]
        have hcnt : scontains k (supdate existing k₁ v₁) = scontains k existing := by
          simp [scontains, hl]
        obtain ⟨ih1, ih2⟩ := ih (supdate existing k₁ v₁) hndt k v hkt
        rw [step_eq]
        constructor
        · intro hf hcc
          rw [ih1 hf (by rw [hcnt]; exact hcc), hl]
        · intro hor
          apply ih2
          rcases hor with h1 | h1
          · exact Or.inl h1
          · exact Or.inr (by rw [hcnt]; exact h1)
      · have step_eq : mergePost existing ((k₁, v₁) :: t) = mergePost existing t := by
          simp only [mergePost, List.foldl_cons]
          rw [if_neg hc]
        rw [step_eq]
        exact ih existing hndt k v hkt

/-- C2: every key/value pair of a dict that `save_settings` persisted
successfully is still bound to the same value after `load_settings` re-reads
the file: the default-key merge only adds absent keys and never changes a
saved binding. -/
theorem c2_settings_roundtrip (s : Settings) (file : Option Settings) (ok : Bool)
    (hsave : save_settings s = (file, ok)) (_hok : ok = true) :
    ∀ (k : String) (v : JVal), slookup k s = some v →
      slookup k (load_settings file) = some v := by
  have hfile : file = some s := by
    have := congrArg Prod.fst hsave
    simpa [save_settings] using this.symm
  subst hfile
  intro k v h
  exact foldMerge_lookup_preserved default_settings s k v h

/-- Witness for C2 at a concrete saved dict. -/
theorem c2_settings_roundtrip_witness :
    slookup "temp_offset" (load_settings (some [("temp_offset", JVal.num 5)]))
      = some (JVal.num 5) :=
  c2_settings_roundtrip [("temp_offset", JVal.num 5)] (some [("temp_offset", JVal.num 5)])
    true rfl rfl "temp_offset" (JVal.num 5) rfl

/-- C5: every dict produced by `load_settings` contains every default key,
and the POST `/api/settings` merge never removes a key, so all default keys
survive the merge. -/
theorem c5_default_keys_invariant (file : Option Settings) (incoming : Settings) :
    (∀ k, k ∈ skeys default_settings → scontains k (load_settings file) = true) ∧
    (∀ (s : Settings) (k : String), scontains k s = true →
        scontains k (mergePost s incoming) = true) ∧
    (∀ k, k ∈ skeys default_settings →
        scontains k (mergePost (load_settings file) incoming) = true) := by
  have hload : ∀ k, k ∈ skeys default_settings → scontains k (load_settings file) = true := by
    intro k hk
    cases file with
    | none =>
      rw [← mem_skeys_iff_scontains]
      exact hk
    | some s => exact foldMerge_contains_of_mem default_settings s k hk
  have hpost : ∀ (s : Settings) (k : String), scontains k s = true →
      scontains k (mergePost s incoming) = true :=
    fun s k h => mergePost_contains_mono incoming s k h
  exact ⟨hload, hpost, fun k hk => hpost _ k (hload k hk)⟩

/-- Witness for C5 at a concrete state. -/
theorem c5_default_keys_invariant_witness :
    scontains "temp_offset" (load_settings none) = true ∧
    scontains "temp_offset" (mergePost (load_settings none) [("x", JVal.num 1)]) = true :=
  ⟨(c5_default_keys_invariant none [("x", JVal.num 1)]).1 "temp_offset"
      (by simp [skeys, default_settings]),
    (c5_default_keys_invariant none [("x", JVal.num 1)]).2.2 "temp_offset"
      (by simp [skeys, default_settings])⟩

/-- C10: in the POST `/api/settings` merge, a falsy incoming value whose key
already exists leaves the stored binding unchanged, while a truthy value or
a fresh key is written. -/
theorem c10_falsy_values_ignored (existing incoming : Settings)
    (hnd : keysNodup incoming) (k : String) (v : JVal)
    (hk : slookup k incoming = some v) :
    (v.truthy = false → scontains k existing = true →
      slookup k (mergePost existing incoming) = slookup k existing) ∧
    ((v.truthy = true ∨ scontains k existing = false) →
      slookup k (mergePost existing incoming) = some v) :=
  mergePost_lookup_cases incoming existing hnd k v hk

/-- Witness for C10: a falsy update to an existing key is dropped, a falsy
value under a fresh key is written. -/
theorem c10_falsy_values_ignored_witness :
    slookup "a" (mergePost [("a", JVal.num 1)] [("a", JVal.str "")])
      = slookup "a" [("a", JVal.num 1)] ∧
    slookup "b" (mergePost [("a", JVal.num 1)] [("b", JVal.str "")])
      = some (JVal.str "") :=
  ⟨(c10_falsy_values_ignored [("a", JVal.num 1)] [("a", JVal.str "")]
      (by simp [keysNodup, skeys]) "a" (JVal.str "") rfl).1 rfl rfl,
    (c10_falsy_values_ignored [("a", JVal.num 1)] [("b", JVal.str "")]
      (by simp [keysNodup, skeys]) "b" (JVal.str "") rfl).2 (Or.inr rfl)⟩

/-- C6, counterexample to the claim as stated: with the source set to
OpenWeatherMap, an API key configured, and the HTTP transaction failing with
a 500 status (no exception raised), `get_current` returns the untouched —
here empty — `self.current_weather` cache instead of the safe default
weather data. -/
theorem c6_counterexample :
    get_current
      { weather_source := "openweather", api_key := "k",
        location := "Gold Coast, QLD", current_weather := none }
      (.resp 500
        { temp := 0, feels_like := 0, weather_main := "", weather_description := "",
          humidity := 0, pressure := 0, wind_speed := 0, wind_deg := 0,
          visibility := none, name := "", country := "", icon := "",
          sunrise := "", sunset := "" })
      = .empty ∧
    WOut.empty ≠ .full (defaultWeather "Gold Coast, QLD") := by
  constructor
  · rfl
  · intro h
    exact WOut.noConfusion h

/-- C6 (amended): `get_current` is total (never raises — every branch of the
embedding returns a dict); with source OpenWeatherMap it returns the safe
default weather data whenever the API key is missing or the HTTP request
raises, while a completed non-200 response yields the previously cached
`current_weather`, which is empty on a fresh service; every other source
always yields a fully populated dict. -/
theorem c6_weather_default_fallback (st : WeatherState) (http : HttpOutcome) :
    (st.weather_source = "openweather" →
      ((st.api_key = "" ∨ http = .exc) →
        get_current st http = .full (defaultWeather st.location)) ∧
      (∀ status body, http = .resp status body → status ≠ 200 → st.api_key ≠ "" →
        get_current st http =
          (match st.current_weather with
            | some w => .full w
            | none => .empty))) ∧
    (st.weather_source ≠ "openweather" → ∃ w, get_current st http = .full w) := by
  constructor
  · intro hsrc
    constructor
    · rintro (hkey | hexc)
      · simp [get_current, hsrc, getOpenweatherCurrent, hkey]
      · subst hexc
        by_cases hkey : st.api_key = "" <;>
          simp [get_current, hsrc, getOpenweatherCurrent, hkey]
    · rintro status body rfl hstatus hkey
      simp [get_current, hsrc, getOpenweatherCurrent, hkey, hstatus]
  · intro hsrc
    by_cases h1 : st.weather_source = "qld_radar"
    · exact ⟨qldWeather, by simp [get_current, hsrc, h1]⟩
    · by_cases h2 : st.weather_source = "bom_australia" <;>
        exact ⟨defaultWeather st.location, by simp [get_current, hsrc, h1, h2]⟩

/-- Witness for C6 (amended) at a concrete state: a missing API key yields
the default weather data. -/
theorem c6_weather_default_fallback_witness :
    get_current
      { weather_source := "openweather", api_key := "",
        location := "Loc", current_weather := none } .exc
      = .full (defaultWeather "Loc") :=
  ((c6_weather_default_fallback
      { weather_source := "openweather", api_key := "",
        location := "Loc", current_weather := none } .exc).1 rfl).1 (Or.inl rfl)

theorem floor_int_add_half (z : ℤ) : ⌊((z : ℚ)) + 1 / 2⌋ = z := by
  rw [Int.floor_int_add]
  norm_num

theorem round1_bounds {lo hi : ℤ} {x : ℚ} (h1 : (lo : ℚ) ≤ x) (h2 : x ≤ (hi : ℚ)) :
    (lo : ℚ) ≤ round1 x ∧ round1 x ≤ (hi : ℚ) := by
  have hlo : (10 * lo : ℤ) ≤ round (10 * x) := by
    rw [round_eq]
    calc (10 * lo : ℤ) = ⌊((10 * lo : ℤ) : ℚ) + 1 / 2⌋ := by
          rw [floor_int_add_half]
      _ ≤ ⌊10 * x + 1 / 2⌋ := by
          apply Int.floor_le_floor
          push_cast
          linarith
  have hhi : round (10 * x) ≤ (10 * hi : ℤ) := by
    rw [round_eq]
    calc ⌊10 * x + 1 / 2⌋ ≤ ⌊((10 * hi : ℤ) : ℚ) + 1 / 2⌋ := by
          apply Int.floor_le_floor
          push_cast
          linarith
      _ = (10 * hi : ℤ) := by rw [floor_int_add_half]
  constructor
  · unfold round1
    rw [le_div_iff₀ (by norm_num : (0 : ℚ) < 10)]
    have : ((10 * lo : ℤ) : ℚ) ≤ ((round (10 * x) : ℤ) : ℚ) := by exact_mod_cast hlo
    push_cast at this ⊢
    linarith
  · unfold round1
    rw [div_le_iff₀ (by norm_num : (0 : ℚ) < 10)]
    have : ((round (10 * x) : ℤ) : ℚ) ≤ ((10 * hi : ℤ) : ℚ) := by exact_mod_cast hhi
    push_cast at this ⊢
    linarith

/-- C1: when the hardware libraries are unavailable, `read_sensors` always
returns (the simulation branch is a total function of its random draws) a
reading whose temperature is non-null and lies in the documented simulated
bound [15, 35] and whose humidity is non-null and lies in [30, 70], for any
draws inside the ranges of `random.uniform(-5, 15)` and
`random.uniform(-10, 30)`. -/
theorem c1_sim_bounds (d : SimDraws)
    (ht1 : -5 ≤ d.tJitter) (ht2 : d.tJitter ≤ 15)
    (hh1 : -10 ≤ d.hJitter) (hh2 : d.hJitter ≤ 30) :
    ∃ t hu : ℚ, (read_sensors_sim d).temperature = some t ∧ 15 ≤ t ∧ t ≤ 35 ∧
      (read_sensors_sim d).humidity = some hu ∧ 30 ≤ hu ∧ hu ≤ 70 := by
  refine ⟨round1 (20 + d.tJitter), round1 (40 + d.hJitter), rfl, ?_, ?_, rfl, ?_, ?_⟩
  · have := (@round1_bounds 15 35 (20 + d.tJitter)
      (by push_cast; linarith) (by push_cast; linarith)).1
    exact_mod_cast this
  · have := (@round1_bounds 15 35 (20 + d.tJitter)
      (by push_cast; linarith) (by push_cast; linarith)).2
    exact_mod_cast this
  · have := (@round1_bounds 30 70 (40 + d.hJitter)
      (by push_cast; linarith) (by push_cast; linarith)).1
    exact_mod_cast this
  · have := (@round1_bounds 30 70 (40 + d.hJitter)
      (by push_cast; linarith) (by push_cast; linarith)).2
    exact_mod_cast this

/-- Witness for C1 at concrete draws. -/
theorem c1_sim_bounds_witness :
    ∃ t hu : ℚ, (read_sensors_sim ⟨0, 0, 0, 0, 0⟩).temperature = some t ∧
      15 ≤ t ∧ t ≤ 35 ∧
      (read_sensors_sim ⟨0, 0, 0, 0, 0⟩).humidity = some hu ∧ 30 ≤ hu ∧ hu ≤ 70 :=
  c1_sim_bounds ⟨0, 0, 0, 0, 0⟩ (by norm_num) (by norm_num) (by norm_num) (by norm_num)

theorem read_sensors_hw_light (env : HwEnv) :
    (read_sensors_hw env).light_level =
      if env.sensorsPresent = true then
        (if env.lightPresent = true then
          (match env.lightRead with
            | some b => if b then "bright" else "dark"
            | none => "unknown")
        else "unknown")
      else "unknown" := by
  obtain ⟨sp, dp, f, gp, gr, lp, lr, off⟩ := env
  cases sp <;> cases dp <;> cases gp <;> rcases gr with _ | g <;> cases lp <;>
    rcases lr with _ | b <;> simp [read_sensors_hw]

theorem read_sensors_hw_temp_hum (env : HwEnv) :
    (read_sensors_hw env).temperature =
      (if env.sensorsPresent = true ∧ env.dhtPresent = true
        then (dhtRetry env.dht env.temp_offset).temperature else none) ∧
    (read_sensors_hw env).humidity =
      (if env.sensorsPresent = true ∧ env.dhtPresent = true
        then (dhtRetry env.dht env.temp_offset).humidity else none) := by
  obtain ⟨sp, dp, f, gp, gr, lp, lr, off⟩ := env
  cases sp <;> cases dp <;> cases gp <;> rcases gr with _ | g <;> cases lp <;>
    rcases lr with _ | b <;> simp [read_sensors_hw]

/-- C8, counterexample to the claim as stated: in the hardware branch, when
no light sensor was registered, the returned `light_level` is the initial
`'unknown'`, which is none of `'dark'`, `'dim'`, `'bright'`. -/
theorem c8_counterexample :
    (read_sensors_hw
      { sensorsPresent := true, dhtPresent := false, dht := fun _ => .exc,
        gasPresent := false, gasRead := none, lightPresent := false,
        lightRead := none, temp_offset := 0 }).light_level = "unknown" ∧
    "unknown" ∉ (["dark", "dim", "bright"] : List String) := by
  refine ⟨rfl, by decide⟩

/-- C8 (amended): the simulation branch always returns a `light_level` among
`'dark'`, `'dim'`, `'bright'`; the hardware branch returns `'bright'` or
`'dark'` exactly when the light pin was registered and its read succeeded,
and the initial `'unknown'` otherwise. -/
theorem c8_light_level_enum (d : SimDraws) (env : HwEnv) :
    (read_sensors_sim d).light_level ∈ (["dark", "dim", "bright"] : List String) ∧
    ((read_sensors_hw env).light_level = "unknown" ∨
      (read_sensors_hw env).light_level ∈ (["dark", "bright"] : List String)) ∧
    (env.sensorsPresent = true → env.lightPresent = true →
      ∀ b, env.lightRead = some b →
        (read_sensors_hw env).light_level = if b then "bright" else "dark") ∧
    ((env.sensorsPresent = false ∨ env.lightPresent = false ∨ env.lightRead = none) →
      (read_sensors_hw env).light_level = "unknown") := by
  refine ⟨?_, ?_, ?_, ?_⟩
  · obtain ⟨t, h, g, l, a⟩ := d
    obtain ⟨i, hi⟩ := l
    interval_cases i <;> simp [read_sensors_sim, simLightChoices]
  · rw [read_sensors_hw_light]
    rcases henv : env.lightRead with _ | b
    · by_cases h1 : env.sensorsPresent = true <;> by_cases h2 : env.lightPresent = true <;>
        simp [h1, h2, henv]
    · by_cases h1 : env.sensorsPresent = true <;> by_cases h2 : env.lightPresent = true <;>
        cases b <;> simp [h1, h2, henv]
  · intro h1 h2 b hb
    rw [read_sensors_hw_light]
    simp [h1, h2, hb]
  · intro h
    rw [read_sensors_hw_light]
    rcases h with h1 | h1 | h1 <;> simp [h1]

/-- Witness for C8 (amended): a successful light read of `1` yields
`'bright'`. -/
theorem c8_light_level_enum_witness :
    (read_sensors_hw
      { sensorsPresent := true, dhtPresent := false, dht := fun _ => .exc,
        gasPresent := false, gasRead := none, lightPresent := true,
        lightRead := some true, temp_offset := 0 }).light_level = "bright" :=
  (c8_light_level_enum ⟨0, 0, 0, 0, 0⟩
    { sensorsPresent := true, dhtPresent := false, dht := fun _ => .exc,
      gasPresent := false, gasRead := none, lightPresent := true,
      lightRead := some true, temp_offset := 0 }).2.2.1 rfl rfl true rfl

theorem DhtAttempt.ok_iff (a : DhtAttempt) :
    a.ok = true ↔ ∃ t h : ℚ, a = .vals (some t) (some h) := by
  cases a with
  | exc => simp [ok]
  | vals t h => cases t <;> cases h <;> simp [ok]

theorem dhtAux_step_ok (f : Nat → DhtAttempt) (off : ℚ) (i fuel : Nat) (t h : ℚ)
    (hf : f i = .vals (some t) (some h)) :
    dhtAux f off i (fuel + 1) =
      { attempts := 1, sleeps := [0],
        temperature := some (round1 (t + off)), humidity := some (round1 h) } := by
  simp [dhtAux, hf]

theorem dhtAux_step_fail (f : Nat → DhtAttempt) (off : ℚ) (i fuel : Nat)
    (hf : (f i).ok = false) :
    dhtAux f off i (fuel + 1) =
      { attempts := (dhtAux f off (i + 1) fuel).attempts + 1,
        sleeps := (if f i = DhtAttempt.exc ∧ fuel ≠ 0 then 2 else 0)
          :: (dhtAux f off (i + 1) fuel).sleeps,
        temperature := (dhtAux f off (i + 1) fuel).temperature,
        humidity := (dhtAux f off (i + 1) fuel).humidity } := by
  cases hfi : f i with
  | exc =>
    by_cases hz : fuel = 0 <;> simp [dhtAux, hfi, hz]
  | vals t h =>
    cases t <;> cases h <;> simp_all [dhtAux, DhtAttempt.ok]

theorem dhtAux_attempts_le (f : Nat → DhtAttempt) (off : ℚ) :
    ∀ fuel i, (dhtAux f off i fuel).attempts ≤ fuel := by
  intro fuel
  induction fuel with
  | zero => intro i; simp [dhtAux]
  | succ n ih =>
    intro i
    by_cases hok : (f i).ok = true
    · obtain ⟨t, h, hf⟩ := (DhtAttempt.ok_iff (f i)).mp hok
      rw [dhtAux_step_ok f off i n t h hf]
      show 1 ≤ n + 1
      omega
    · rw [dhtAux_step_fail f off i n (by simpa using hok)]
      show (dhtAux f off (i + 1) n).attempts + 1 ≤ n + 1
      have := ih (i + 1)
      omega

theorem dhtAux_sleeps_len (f : Nat → DhtAttempt) (off : ℚ) :
    ∀ fuel i, (dhtAux f off i fuel).sleeps.length = (dhtAux f off i fuel).attempts := by
  intro fuel
  induction fuel with
  | zero => intro i; simp [dhtAux]
  | succ n ih =>
    intro i
    by_cases hok : (f i).ok = true
    · obtain ⟨t, h, hf⟩ := (DhtAttempt.ok_iff (f i)).mp hok
      rw [dhtAux_step_ok f off i n t h hf]
      rfl
    · rw [dhtAux_step_fail f off i n (by simpa using hok)]
      show ((if f i = DhtAttempt.exc ∧ n ≠ 0 then 2 else 0)
          :: (dhtAux f off (i + 1) n).sleeps).length = (dhtAux f off (i + 1) n).attempts + 1
      simp [ih (i + 1)]

theorem dhtAux_fail_before (f : Nat → DhtAttempt) (off : ℚ) :
    ∀ fuel i j, j + 1 < (dhtAux f off i fuel).attempts → (f (i + j)).ok = false := by
  intro fuel
  induction fuel with
  | zero => intro i j hj; simp [dhtAux] at hj
  | succ n ih =>
    intro i j hj
    by_cases hok : (f i).ok = true
    · obtain ⟨t, h, hf⟩ := (DhtAttempt.ok_iff (f i)).mp hok
      rw [dhtAux_step_ok f off i n t h hf] at hj
      have hj' : j + 1 < 1 := hj
      omega
    · rw [dhtAux_step_fail f off i n (by simpa using hok)] at hj
      have hj' : j + 1 < (dhtAux f off (i + 1) n).attempts + 1 := hj
      cases j with
      | zero => simpa using hok
      | succ j₁ =>
        have heq : i + (j₁ + 1) = (i + 1) + j₁ := by omega
        rw [heq]
        exact ih (i + 1) j₁ (by omega)

theorem dhtAux_first_success (f : Nat → DhtAttempt) (off : ℚ) :
    ∀ fuel i k (t h : ℚ), k < fuel → (∀ j < k, (f (i + j)).ok = false) →
      f (i + k) = .vals (some t) (some h) →
      (dhtAux f off i fuel).attempts = k + 1 ∧
      (dhtAux f off i fuel).temperature = some (round1 (t + off)) ∧
      (dhtAux f off i fuel).humidity = some (round1 h) := by
  intro fuel
  induction fuel with
  | zero => intro i k t h hk; omega
  | succ n ih =>
    intro i k t h hk hfail hsucc
    cases k with
    | zero =>
      rw [Nat.add_zero] at hsucc
      rw [dhtAux_step_ok f off i n t h hsucc]
      exact ⟨rfl, rfl, rfl⟩
    | succ k₁ =>
      have h0 : (f i).ok = false := by
        have := hfail 0 (by omega)
        simpa using this
      rw [dhtAux_step_fail f off i n h0]
      have hfail₁ : ∀ j < k₁, (f ((i + 1) + j)).ok = false := by
        intro j hj
        have heq : (i + 1) + j = i + (j + 1) := by omega
        rw [heq]
        exact hfail (j + 1) (by omega)
      have hsucc₁ : f ((i + 1) + k₁) = .vals (some t) (some h) := by
        have heq : (i + 1) + k₁ = i + (k₁ + 1) := by omega
        rw [heq]
        exact hsucc
      obtain ⟨h1, h2, h3⟩ := ih (i + 1) k₁ t h (by omega) hfail₁ hsucc₁
      refine ⟨?_, h2, h3⟩
      show (dhtAux f off (i + 1) n).attempts + 1 = k₁ + 1 + 1
      rw [h1]

theorem dhtAux_all_fail (f : Nat → DhtAttempt) (off : ℚ) :
    ∀ fuel i, (∀ j < fuel, (f (i + j)).ok = false) →
      (dhtAux f off i fuel).attempts = fuel ∧
      (dhtAux f off i fuel).temperature = none ∧
      (dhtAux f off i fuel).humidity = none := by
  intro fuel
  induction fuel with
  | zero => intro i _; exact ⟨rfl, rfl, rfl⟩
  | succ n ih =>
    intro i hfail
    have h0 : (f i).ok = false := by
      have := hfail 0 (by omega)
      simpa using this
    rw [dhtAux_step_fail f off i n h0]
    have hfail₁ : ∀ j < n, (f ((i + 1) + j)).ok = false := by
      intro j hj
      have heq : (i + 1) + j = i + (j + 1) := by omega
      rw [heq]
      exact hfail (j + 1) (by omega)
    obtain ⟨h1, h2, h3⟩ := ih (i + 1) hfail₁
    refine ⟨?_, h2, h3⟩
    show (dhtAux f off (i + 1) n).attempts + 1 = n + 1
    rw [h1]

theorem dhtAux_sleeps_getD (f : Nat → DhtAttempt) (off : ℚ) :
    ∀ fuel i j, j < (dhtAux f off i fuel).attempts →
      (dhtAux f off i fuel).sleeps.getD j 0 =
        if f (i + j) = DhtAttempt.exc ∧ j + 1 < fuel then 2 else 0 := by
  intro fuel
  induction fuel with
  | zero => intro i j hj; simp [dhtAux] at hj
  | succ n ih =>
    intro i j hj
    by_cases hok : (f i).ok = true
    · obtain ⟨t, h, hf⟩ := (DhtAttempt.ok_iff (f i)).mp hok
      rw [dhtAux_step_ok f off i n t h hf] at hj ⊢
      have hj' : j < 1 := hj
      have hj0 : j = 0 := by omega
      subst hj0
      rw [Nat.add_zero]
      simp [hf]
    · have hfl : (f i).ok = false := by simpa using hok
      rw [dhtAux_step_fail f off i n hfl] at hj ⊢
      cases j with
      | zero =>
        rw [Nat.add_zero]
        show (if f i = DhtAttempt.exc ∧ n ≠ 0 then 2 else 0) =
          if f i = DhtAttempt.exc ∧ 0 + 1 < n + 1 then 2 else 0
        by_cases he : f i = DhtAttempt.exc
        · by_cases hz : n = 0
          · subst hz
            simp [he]
          · have h1 : 0 + 1 < n + 1 := by omega
            simp [he, hz, h1]
        · simp [he]
      | succ j₁ =>
        have hj₁ : j₁ < (dhtAux f off (i + 1) n).attempts := by
          have hj' : j₁ + 1 < (dhtAux f off (i + 1) n).attempts + 1 := hj
          omega
        show ((if f i = DhtAttempt.exc ∧ n ≠ 0 then 2 else 0)
            :: (dhtAux f off (i + 1) n).sleeps).getD (j₁ + 1) 0 =
          if f (i + (j₁ + 1)) = DhtAttempt.exc ∧ (j₁ + 1) + 1 < n + 1 then 2 else 0
        rw [List.getD_cons_succ, ih (i + 1) j₁ hj₁]
        have heq : (i + 1) + j₁ = i + (j₁ + 1) := by omega
        rw [heq]
        by_cases he : f (i + (j₁ + 1)) = DhtAttempt.exc
        · by_cases hlt : j₁ + 1 < n
          · have h1 : j₁ + 1 + 1 < n + 1 := by omega
            simp [he, hlt, h1]
          · have h1 : ¬(j₁ + 1 + 1 < n + 1) := by omega
            simp [he, hlt, h1]
        · simp [he]

/-- C4, counterexample to the claim as stated: a DHT22 that returns a
`None`/`None` pair on every attempt makes three failed attempts, yet no
2-second delay is inserted between them (the `time.sleep(retry_delay)` only
runs in the `except` handlers, not on the `None`-values path), where the
claimed fixed delay between failed attempts would require
`sleeps.getD 0 0 = 2`. -/
theorem c4_counterexample :
    (dhtRetry (fun _ => DhtAttempt.vals none none) 0).attempts = 3 ∧
    (DhtAttempt.vals none none).ok = false ∧
    (dhtRetry (fun _ => DhtAttempt.vals none none) 0).sleeps.getD 0 0 = 0 :=
  ⟨rfl, rfl, rfl⟩

/-- C4 (amended): the DHT22 retry loop makes at most 3 read attempts, every
attempt followed by a further attempt failed, it stops at the first attempt
yielding a non-null pair (returning the calibrated rounded values), after
three failures temperature and humidity remain null — also in the reading
`read_sensors` returns, so no sensor error reaches the caller — and a
2-second delay follows exactly the non-final attempts that failed with an
exception (a `None`-pair attempt retries immediately). -/
theorem c4_dht_retry_policy (f : Nat → DhtAttempt) (off : ℚ) (env : HwEnv) :
    (dhtRetry f off).attempts ≤ 3 ∧
    (∀ j, j + 1 < (dhtRetry f off).attempts → (f j).ok = false) ∧
    (∀ k (t h : ℚ), k < 3 → (∀ j < k, (f j).ok = false) →
      f k = DhtAttempt.vals (some t) (some h) →
      (dhtRetry f off).attempts = k + 1 ∧
      (dhtRetry f off).temperature = some (round1 (t + off)) ∧
      (dhtRetry f off).humidity = some (round1 h)) ∧
    ((∀ j < 3, (f j).ok = false) →
      (dhtRetry f off).attempts = 3 ∧ (dhtRetry f off).temperature = none ∧
        (dhtRetry f off).humidity = none) ∧
    (dhtRetry f off).sleeps.length = (dhtRetry f off).attempts ∧
    (∀ j, j < (dhtRetry f off).attempts →
      (dhtRetry f off).sleeps.getD j 0 =
        if f j = DhtAttempt.exc ∧ j + 1 < 3 then 2 else 0) ∧
    ((∀ j < 3, (env.dht j).ok = false) →
      (read_sensors_hw env).temperature = none ∧
        (read_sensors_hw env).humidity = none) := by
  refine ⟨dhtAux_attempts_le f off 3 0, ?_, ?_, ?_, dhtAux_sleeps_len f off 3 0, ?_, ?_⟩
  · intro j hj
    have := dhtAux_fail_before f off 3 0 j hj
    simpa using this
  · intro k t h hk hfail hsucc
    exact dhtAux_first_success f off 3 0 k t h hk (by simpa using hfail) (by simpa using hsucc)
  · intro hfail
    exact dhtAux_all_fail f off 3 0 (by simpa using hfail)
  · intro j hj
    have := dhtAux_sleeps_getD f off 3 0 j hj
    simpa using this
  · intro hfail
    obtain ⟨he1, he2⟩ := read_sensors_hw_temp_hum env
    rw [he1, he2]
    by_cases hp : env.sensorsPresent = true ∧ env.dhtPresent = true
    · obtain ⟨_, ht, hh⟩ := dhtAux_all_fail env.dht env.temp_offset 3 0 (by simpa using hfail)
      constructor
      · rw [if_pos hp]
        exact ht
      · rw [if_pos hp]
        exact hh
    · rw [if_neg hp, if_neg hp]
      exact ⟨rfl, rfl⟩

/-- Witness for C4 (amended): with a first attempt raising and a second
attempt succeeding, the loop stops after two attempts, sleeps 2 seconds
after the first, and returns the rounded values. -/
theorem c4_dht_retry_policy_witness :
    (dhtRetry (fun i => if i = 0 then DhtAttempt.exc else DhtAttempt.vals (some 21) (some 50)) 0).attempts = 2 ∧
    (dhtRetry (fun i => if i = 0 then DhtAttempt.exc else DhtAttempt.vals (some 21) (some 50)) 0).temperature
      = some (round1 (21 + 0)) ∧
    (dhtRetry (fun i => if i = 0 then DhtAttempt.exc else DhtAttempt.vals (some 21) (some 50)) 0).humidity
      = some (round1 50) :=
  (c4_dht_retry_policy
      (fun i => if i = 0 then DhtAttempt.exc else DhtAttempt.vals (some 21) (some 50)) 0
      { sensorsPresent := true, dhtPresent := true,
        dht := fun i => if i = 0 then DhtAttempt.exc else DhtAttempt.vals (some 21) (some 50),
        gasPresent := false, gasRead := none, lightPresent := false,
        lightRead := none, temp_offset := 0 }).2.2.1 1 21 50 (by omega)
    (by intro j hj; interval_cases j; rfl) rfl

theorem leadsList_iff (n : List Char) : ∀ h : List Char, leadsList n h = true ↔ n <+: h := by
  induction n with
  | nil => intro h; simp [leadsList]
  | cons a as ih =>
    intro h
    cases h with
    | nil => simp [leadsList]
    | cons b bs =>
      rw [List.cons_prefix_cons]
      simp [leadsList, ih bs]

theorem occursIn_iff (n : List Char) : ∀ h : List Char, occursIn n h = true ↔ n <:+: h := by
  intro h
  induction h with
  | nil =>
    simp [occursIn, leadsList_iff, List.infix_nil]
  | cons c t ih =>
    rw [List.infix_cons_iff, ← ih, ← leadsList_iff n (c :: t)]
    simp [occursIn]

theorem substrOf_trans (a b c : String) (h1 : substrOf a b = true) (h2 : substrOf b c = true) :
    substrOf a c = true := by
  rw [substrOf, occursIn_iff] at h1 h2 ⊢
  exact h1.trans h2

/-- C3 (spec-modelled): any utterance containing the substring
"turn on the light" matches the first keyword rule, so the resolver emits a
`light.turn_on` device action whose `entity_id` is the stored entity of the
first alias whose phrase appears in the utterance, and the hardcoded default
entity `light.living_room` when no alias phrase appears. -/
theorem c3_turn_on_light (aliases : List (String × String)) (u : String)
    (h : substrOf "turn on the light" u = true) :
    keywordRule aliases u =
      some { domain := "light", service := "turn_on",
             payload := [("entity_id", JVal.str (resolveEntity aliases u "light.living_room"))] } ∧
    (∀ a, aliases.find? (fun p => substrOf p.1 u) = some a →
      resolveEntity aliases u "light.living_room" = a.2) ∧
    (aliases.find? (fun p => substrOf p.1 u) = none →
      resolveEntity aliases u "light.living_room" = "light.living_room") := by
  have h1 : substrOf "turn on" u = true := substrOf_trans "turn on" "turn on the light" u rfl h
  have h2 : substrOf "light" u = true := substrOf_trans "light" "turn on the light" u rfl h
  refine ⟨?_, ?_, ?_⟩
  · simp [keywordRule, h1, h2]
  · intro a ha
    simp [resolveEntity, ha]
  · intro ha
    simp [resolveEntity, ha]

/-- Witness for C3 at a concrete utterance and alias table. -/
theorem c3_turn_on_light_witness :
    keywordRule [("bedroom", "light.bedroom_1")] "turn on the light in the bedroom" =
      some { domain := "light", service := "turn_on",
             payload := [("entity_id", JVal.str (resolveEntity [("bedroom", "light.bedroom_1")]
               "turn on the light in the bedroom" "light.living_room"))] } ∧
    (∀ a, [("bedroom", "light.bedroom_1")].find?
        (fun p => substrOf p.1 "turn on the light in the bedroom") = some a →
      resolveEntity [("bedroom", "light.bedroom_1")] "turn on the light in the bedroom"
        "light.living_room" = a.2) ∧
    ([("bedroom", "light.bedroom_1")].find?
        (fun p => substrOf p.1 "turn on the light in the bedroom") = none →
      resolveEntity [("bedroom", "light.bedroom_1")] "turn on the light in the bedroom"
        "light.living_room" = "light.living_room") :=
  c3_turn_on_light [("bedroom", "light.bedroom_1")] "turn on the light in the bedroom" rfl

theorem slookup_hideStep_ne (s : Settings) (j k : String) (h1 : ¬j = k)
    (h2 : ¬j ++ "_configured" = k) : slookup k (hideStep s j) = slookup k s := by
  unfold hideStep
  cases hv : slookup j s with
  | none => rfl
  | some v =>
    by_cases ht : v.truthy = true
    · simp only [ht, if_true]
      rw [slookup_supdate, if_neg h1, slookup_supdate, if_neg h2]
    · simp [ht]

theorem fold_hide_untouched (ks : List String) :
    ∀ (s : Settings) (k : String), (∀ j ∈ ks, ¬j = k ∧ ¬j ++ "_configured" = k) →
    slookup k (ks.foldl hideStep s) = slookup k s := by
  induction ks with
  | nil => intro s k _; rfl
  | cons j t ih =>
    intro s k h
    simp only [List.foldl_cons]
    rw [ih (hideStep s j) k (fun x hx => h x (List.mem_cons_of_mem j hx)),
      slookup_hideStep_ne s j k (h j (List.mem_cons_self j t)).1
        (h j (List.mem_cons_self j t)).2]

theorem hideStep_self_key (s : Settings) (k : String) (a : String)
    (hv : slookup k s = some (JVal.str a)) :
    slookup k (hideStep s k) = some (JVal.str "") := by
  unfold hideStep
  rw [hv]
  by_cases ha : a = ""
  · subst ha
    simp [JVal.truthy, hv]
  · have ht : (JVal.str a).truthy = true := by simp [JVal.truthy, ha]
    simp only [ht, if_true]
    rw [slookup_supdate, if_pos rfl]

theorem hideStep_self_conf (s : Settings) (k : String) (a : String)
    (hv : slookup k s = some (JVal.str a)) (hck : ¬k = k ++ "_configured") :
    slookup (k ++ "_configured") (hideStep s k) =
      if a = "" then slookup (k ++ "_configured") s else some (JVal.bool true) := by
  unfold hideStep
  rw [hv]
  by_cases ha : a = ""
  · simp [ha, JVal.truthy]
  · have ht : (JVal.str a).truthy = true := by simp [JVal.truthy, ha]
    simp only [ht, if_true, ha, if_neg]
    rw [slookup_supdate, if_neg hck, slookup_supdate, if_pos rfl]
    simp

theorem sensitiveKeys_facts :
    sensitiveKeys.Nodup ∧
    (∀ a ∈ sensitiveKeys, ∀ b ∈ sensitiveKeys, ¬a ++ "_configured" = b) ∧
    (∀ a ∈ sensitiveKeys, ∀ b ∈ sensitiveKeys, ¬a = b → ¬a ++ "_configured" = b ++ "_configured") ∧
    (∀ a ∈ sensitiveKeys, ¬a = a ++ "_configured") := by decide

theorem safeSettings_key_blanked (s : Settings) (k : String) (hk : k ∈ sensitiveKeys)
    (a : String) (hv : slookup k s = some (JVal.str a)) :
    slookup k (safeSettings s) = some (JVal.str "") := by
  obtain ⟨pre, post, hsplit⟩ := List.append_of_mem hk
  have hnd := sensitiveKeys_facts.1
  have hnotconf := sensitiveKeys_facts.2.1
  rw [hsplit] at hnd
  have hkpre : k ∉ pre := by
    rw [List.nodup_append] at hnd
    exact fun hmem => hnd.2.2 hmem (List.mem_cons_self k post)
  have hkpost : k ∉ post := by
    rw [List.nodup_append, List.nodup_cons] at hnd
    exact hnd.2.1.1
  unfold safeSettings
  rw [hsplit, List.foldl_append, List.foldl_cons]
  have hpre : slookup k (pre.foldl hideStep s) = some (JVal.str a) := by
    rw [fold_hide_untouched pre s k ?_, hv]
    intro j hj
    have hjmem : j ∈ sensitiveKeys := by
      rw [hsplit]
      exact List.mem_append_left _ hj
    exact ⟨fun he => hkpre (he ▸ hj),
      hnotconf j hjmem k hk⟩
  rw [fold_hide_untouched post _ k ?_]
  · exact hideStep_self_key _ k a hpre
  · intro j hj
    have hjmem : j ∈ sensitiveKeys := by
      rw [hsplit]
      exact List.mem_append_right _ (List.mem_cons_of_mem k hj)
    exact ⟨fun he => hkpost (he ▸ hj), hnotconf j hjmem k hk⟩

theorem safeSettings_conf_key (s : Settings) (k : String) (hk : k ∈ sensitiveKeys)
    (a : String) (hv : slookup k s = some (JVal.str a))
    (hc : slookup (k ++ "_configured") s = none) :
    slookup (k ++ "_configured") (safeSettings s) =
      (if a = "" then none else some (JVal.bool true)) := by
  obtain ⟨pre, post, hsplit⟩ := List.append_of_mem hk
  have hnd := sensitiveKeys_facts.1
  have hnotconf := sensitiveKeys_facts.2.1
  have hconfinj := sensitiveKeys_facts.2.2.1
  have hselfconf := sensitiveKeys_facts.2.2.2
  rw [hsplit] at hnd
  have hkpre : k ∉ pre := by
    rw [List.nodup_append] at hnd
    exact fun hmem => hnd.2.2 hmem (List.mem_cons_self k post)
  have hkpost : k ∉ post := by
    rw [List.nodup_append, List.nodup_cons] at hnd
    exact hnd.2.1.1
  have hmempre : ∀ j ∈ pre, j ∈ sensitiveKeys := by
    intro j hj
    rw [hsplit]
    exact List.mem_append_left _ hj
  have hmempost : ∀ j ∈ post, j ∈ sensitiveKeys := by
    intro j hj
    rw [hsplit]
    exact List.mem_append_right _ (List.mem_cons_of_mem k hj)
  have huntouched : ∀ j ∈ pre, ¬j = k ++ "_configured" ∧ ¬j ++ "_configured" = k ++ "_configured" := by
    intro j hj
    refine ⟨fun he => hnotconf k hk j (hmempre j hj) he.symm, ?_⟩
    exact hconfinj j (hmempre j hj) k hk (fun he => hkpre (he ▸ hj))
  have huntouched₂ : ∀ j ∈ post, ¬j = k ++ "_configured" ∧ ¬j ++ "_configured" = k ++ "_configured" := by
    intro j hj
    refine ⟨fun he => hnotconf k hk j (hmempost j hj) he.symm, ?_⟩
    exact hconfinj j (hmempost j hj) k hk (fun he => hkpost (he ▸ hj))
  have hprek : slookup k (pre.foldl hideStep s) = some (JVal.str a) := by
    rw [fold_hide_untouched pre s k ?_, hv]
    intro j hj
    exact ⟨fun he => hkpre (he ▸ hj), hnotconf j (hmempre j hj) k hk⟩
  have hpreconf : slookup (k ++ "_configured") (pre.foldl hideStep s) = none := by
    rw [fold_hide_untouched pre s _ huntouched, hc]
  unfold safeSettings
  rw [hsplit, List.foldl_append, List.foldl_cons,
    fold_hide_untouched post _ _ huntouched₂,
    hideStep_self_conf _ k a hprek (hselfconf k hk)]
  by_cases ha : a = ""
  · simp [ha, hpreconf]
  · simp [ha]

/-- Two settings dicts that have the same keys in the same order and agree
on every value except possibly at the listed keys, where both must hold
non-empty secret strings. -/
def secretsAgree (ks : List String) (s₁ s₂ : Settings) : Prop :=
  skeys s₁ = skeys s₂ ∧
  ∀ k, (slookup k s₁ = none ∧ slookup k s₂ = none) ∨
    ∃ v₁ v₂, slookup k s₁ = some v₁ ∧ slookup k s₂ = some v₂ ∧
      (v₁ = v₂ ∨ (k ∈ ks ∧ ∃ a b, v₁ = JVal.str a ∧ v₂ = JVal.str b ∧ a ≠ "" ∧ b ≠ ""))

theorem hideStep_agree (ks : List String) (k : String) (s₁ s₂ : Settings)
    (hck : ¬k = k ++ "_configured")
    (h : secretsAgree (k :: ks) s₁ s₂) :
    secretsAgree ks (hideStep s₁ k) (hideStep s₂ k) := by
  obtain ⟨hkeys, hvals⟩ := h
  have hweaken : ∀ k₁, ¬k₁ = k →
      (slookup k₁ s₁ = none ∧ slookup k₁ s₂ = none) ∨
      ∃ v₁ v₂, slookup k₁ s₁ = some v₁ ∧ slookup k₁ s₂ = some v₂ ∧
        (v₁ = v₂ ∨ (k₁ ∈ ks ∧ ∃ a b, v₁ = JVal.str a ∧ v₂ = JVal.str b ∧ a ≠ "" ∧ b ≠ "")) := by
    intro k₁ hq
    rcases hvals k₁ with h' | ⟨w₁, w₂, hw₁, hw₂, hrel'⟩
    · exact Or.inl h'
    · refine Or.inr ⟨w₁, w₂, hw₁, hw₂, ?_⟩
      rcases hrel' with he | ⟨hmem, hp⟩
      · exact Or.inl he
      · rcases List.mem_cons.mp hmem with he | hmem'
        · exact absurd he hq
        · exact Or.inr ⟨hmem', hp⟩
  rcases hvals k with ⟨hn₁, hn₂⟩ | ⟨v₁, v₂, hv₁, hv₂, hrel⟩
  · rw [show hideStep s₁ k = s₁ from by unfold hideStep; rw [hn₁],
      show hideStep s₂ k = s₂ from by unfold hideStep; rw [hn₂]]
    refine ⟨hkeys, ?_⟩
    intro k₁
    by_cases hq : k₁ = k
    · subst hq
      exact Or.inl ⟨hn₁, hn₂⟩
    · exact hweaken k₁ hq
  · have htr : v₁.truthy = v₂.truthy := by
      rcases hrel with he | ⟨_, a, b, ha1, hb1, ha, hb⟩
      · rw [he]
      · subst ha1
        subst hb1
        have hta : (JVal.str a).truthy = true := by simp [JVal.truthy, ha]
        have htb : (JVal.str b).truthy = true := by simp [JVal.truthy, hb]
        rw [hta, htb]
    by_cases ht : v₁.truthy = true
    · have ht₂ : v₂.truthy = true := by rw [← htr]; exact ht
      have e₁ : hideStep s₁ k =
          supdate (supdate s₁ (k ++ "_configured") (JVal.bool true)) k (JVal.str "") := by
        unfold hideStep
        rw [hv₁]
        simp [ht]
      have e₂ : hideStep s₂ k =
          supdate (supdate s₂ (k ++ "_configured") (JVal.bool true)) k (JVal.str "") := by
        unfold hideStep
        rw [hv₂]
        simp [ht₂]
      have hcc : scontains (k ++ "_configured") s₁ = scontains (k ++ "_configured") s₂ := by
        rcases hvals (k ++ "_configured") with ⟨u1, u2⟩ | ⟨w₁, w₂, u1, u2, _⟩ <;>
          simp [scontains, u1, u2]
      have hc₁ : scontains k (supdate s₁ (k ++ "_configured") (JVal.bool true)) = true := by
        rw [scontains_supdate]
        simp [scontains, hv₁]
      have hc₂ : scontains k (supdate s₂ (k ++ "_configured") (JVal.bool true)) = true := by
        rw [scontains_supdate]
        simp [scontains, hv₂]
      rw [e₁, e₂]
      constructor
      · have k₁eq : skeys (supdate (supdate s₁ (k ++ "_configured") (JVal.bool true)) k (JVal.str "")) =
            if scontains (k ++ "_configured") s₁ then skeys s₁
            else skeys s₁ ++ [k ++ "_configured"] := by
          rw [skeys_supdate, if_pos hc₁, skeys_supdate]
        have k₂eq : skeys (supdate (supdate s₂ (k ++ "_configured") (JVal.bool true)) k (JVal.str "")) =
            if scontains (k ++ "_configured") s₂ then skeys s₂
            else skeys s₂ ++ [k ++ "_configured"] := by
          rw [skeys_supdate, if_pos hc₂, skeys_supdate]
        rw [k₁eq, k₂eq, hkeys, hcc]
      · intro k₁
        by_cases hq : k₁ = k
        · subst hq
          refine Or.inr ⟨JVal.str "", JVal.str "", ?_, ?_, Or.inl rfl⟩
          · rw [slookup_supdate, if_pos rfl]
          · rw [slookup_supdate, if_pos rfl]
        · by_cases hq₂ : k₁ = k ++ "_configured"
          · subst hq₂
            refine Or.inr ⟨JVal.bool true, JVal.bool true, ?_, ?_, Or.inl rfl⟩
            · rw [slookup_supdate, if_neg (fun he => hck he), slookup_supdate, if_pos rfl]
            · rw [slookup_supdate, if_neg (fun he => hck he), slookup_supdate, if_pos rfl]
          · have l₁ : slookup k₁ (supdate (supdate s₁ (k ++ "_configured") (JVal.bool true)) k (JVal.str ""))
                = slookup k₁ s₁ := by
              rw [slookup_supdate, if_neg (fun he => hq he.symm),
                slookup_supdate, if_neg (fun he => hq₂ he.symm)]
            have l₂ : slookup k₁ (supdate (supdate s₂ (k ++ "_configured") (JVal.bool true)) k (JVal.str ""))
                = slookup k₁ s₂ := by
              rw [slookup_supdate, if_neg (fun he => hq he.symm),
                slookup_supdate, if_neg (fun he => hq₂ he.symm)]
            rw [l₁, l₂]
            exact hweaken k₁ hq
    · have ht₂ : ¬v₂.truthy = true := by rw [← htr]; exact ht
      rw [show hideStep s₁ k = s₁ from by unfold hideStep; rw [hv₁]; simp [ht],
        show hideStep s₂ k = s₂ from by unfold hideStep; rw [hv₂]; simp [ht₂]]
      refine ⟨hkeys, ?_⟩
      intro k₁
      by_cases hq : k₁ = k
      · subst hq
        refine Or.inr ⟨v₁, v₂, hv₁, hv₂, Or.inl ?_⟩
        rcases hrel with he | ⟨_, a, b, ha1, hb1, ha, hb⟩
        · exact he
        · subst ha1
          exact absurd (by simp [JVal.truthy, ha]) ht
      · exact hweaken k₁ hq

theorem fold_hide_agree (ks : List String) :
    ∀ s₁ s₂ : Settings, (∀ k ∈ ks, ¬k = k ++ "_configured") →
    secretsAgree ks s₁ s₂ →
    secretsAgree [] (ks.foldl hideStep s₁) (ks.foldl hideStep s₂) := by
  induction ks with
  | nil => intro s₁ s₂ _ h; exact h
  | cons k t ih =>
    intro s₁ s₂ hck h
    simp only [List.foldl_cons]
    exact ih _ _ (fun x hx => hck x (List.mem_cons_of_mem k hx))
      (hideStep_agree t k s₁ s₂ (hck k (List.mem_cons_self k t)) h)

theorem keysNodup_hideStep (s : Settings) (k : String) (h : keysNodup s) :
    keysNodup (hideStep s k) := by
  unfold hideStep
  cases slookup k s with
  | none => exact h
  | some v =>
    by_cases ht : v.truthy = true
    · simp only [ht, if_true]
      exact keysNodup_supdate _ _ _ (keysNodup_supdate _ _ _ h)
    · simp only [ht, if_false]
      exact h

theorem keysNodup_fold_hide (ks : List String) :
    ∀ s : Settings, keysNodup s → keysNodup (ks.foldl hideStep s) := by
  induction ks with
  | nil => intro s h; exact h
  | cons k t ih =>
    intro s h
    simp only [List.foldl_cons]
    exact ih _ (keysNodup_hideStep s k h)

/-- C9: the GET `/api/settings` response maps every sensitive key to the
empty string, carries `key + "_configured" = True` exactly when the stored
secret is non-empty, and is identical for any two settings states that
differ only in the non-empty values of the secrets. -/
theorem c9_secret_hiding (s : Settings)
    (hstr : ∀ k ∈ sensitiveKeys, ∃ a, slookup k s = some (JVal.str a))
    (hconf : ∀ k ∈ sensitiveKeys, slookup (k ++ "_configured") s = none) :
    (∀ k ∈ sensitiveKeys, slookup k (safeSettings s) = some (JVal.str "")) ∧
    (∀ k ∈ sensitiveKeys,
      (slookup (k ++ "_configured") (safeSettings s) = some (JVal.bool true) ↔
        ∃ a, slookup k s = some (JVal.str a) ∧ a ≠ "")) ∧
    (∀ s₂, keysNodup s → secretsAgree sensitiveKeys s s₂ →
      safeSettings s = safeSettings s₂) := by
  refine ⟨?_, ?_, ?_⟩
  · intro k hk
    obtain ⟨a, hv⟩ := hstr k hk
    exact safeSettings_key_blanked s k hk a hv
  · intro k hk
    obtain ⟨a, hv⟩ := hstr k hk
    rw [safeSettings_conf_key s k hk a hv (hconf k hk)]
    by_cases ha : a = ""
    · subst ha
      rw [if_pos rfl]
      constructor
      · intro h
        exact absurd h (by simp)
      · rintro ⟨b, hb, hbne⟩
        rw [hv] at hb
        simp at hb
        exact absurd hb.symm hbne
    · rw [if_neg ha]
      exact ⟨fun _ => ⟨a, hv, ha⟩, fun _ => rfl⟩
  · intro s₂ hnd hagree
    obtain ⟨hkeys, hvals⟩ :=
      fold_hide_agree sensitiveKeys s s₂ sensitiveKeys_facts.2.2.2 hagree
    refine eq_of_lookup_eq (safeSettings s) (safeSettings s₂) hkeys
      (keysNodup_fold_hide sensitiveKeys s hnd) ?_
    intro k
    show slookup k (List.foldl hideStep s sensitiveKeys)
      = slookup k (List.foldl hideStep s₂ sensitiveKeys)
    rcases hvals k with ⟨h1, h2⟩ | ⟨v₁, v₂, h1, h2, hrel⟩
    · rw [h1, h2]
    · rcases hrel with he | ⟨hmem, _⟩
      · rw [h1, h2, he]
      · simp at hmem

/-- Witness for C9 at the default settings dict, whose secrets are all
present as (empty) strings. -/
theorem c9_secret_hiding_witness :
    slookup "openai_api_key" (safeSettings default_settings) = some (JVal.str "") ∧
    (slookup ("openai_api_key" ++ "_configured") (safeSettings default_settings)
        = some (JVal.bool true) ↔
      ∃ a, slookup "openai_api_key" default_settings = some (JVal.str a) ∧ a ≠ "") :=
  ⟨(c9_secret_hiding default_settings
      (by intro k hk; fin_cases hk <;> exact ⟨"", rfl⟩)
      (by intro k hk; fin_cases hk <;> rfl)).1 "openai_api_key" (by simp [sensitiveKeys]),
    (c9_secret_hiding default_settings
      (by intro k hk; fin_cases hk <;> exact ⟨"", rfl⟩)
      (by intro k hk; fin_cases hk <;> rfl)).2.1 "openai_api_key" (by simp [sensitiveKeys])⟩
